import Mathlib

/-
  Verification development for the tungstenjs template engine subset.

  Part A embeds test_stack.js (the TemplateStack builder: open/close element
  bookkeeping, node normalization, text merging, mismatch recovery).
  Part B embeds src/template/template.js (the Template facade and the
  attachViews component-attachment pass).

  JavaScript objects are modeled by a single inductive JVal covering the
  field set this module reads and writes (type, id, tagName, value,
  attributes, children, isOpen, text).  Absent fields are modeled by undef
  or none.  The logger.warn diagnostic sink is modeled as a list of strings
  threaded through the builder state.
-/

/-- Value of the dynamic field obj.type in test_stack.js: a numeric ractive
type tag (ELEMENT = 7, COMMENT = 9, INTERPOLATOR = 2, TRIPLE = 3,
SECTION = 4, PARTIAL = 8, REFERENCE = 30, SECTION_UNLESS = 51), a string tag
(such as the strings comment, Widget, attributename, attributevalue,
attributeend, or the string p used by the empty-stack paragraph quirk), or
absent (undefT, the JS undefined). -/
inductive JType : Type where
  | num (n : Nat)
  | tag (s : String)
  | undefT
deriving DecidableEq

/-- A JavaScript value as used by test_stack.js: a plain string, undefined,
or an object carrying the fields the module touches, in order: type, id,
tagName, value, attributes, children, isOpen, text.  Fields the JS leaves
unset are undef (scalar slots), none (array slots) or false (isOpen). -/
inductive JVal : Type where
  | str (s : String)
  | undef
  | obj (ty : JType) (idv : JVal) (tagv : JVal) (valv : JVal)
        (attrs : Option (List JVal)) (childs : Option (List JVal))
        (opn : Bool) (tx : JVal)

instance : Inhabited JVal := ⟨JVal.undef⟩

/-- The JS empty object literal: no fields set. -/
def emptyJsObj : JVal :=
  JVal.obj JType.undefT JVal.undef JVal.undef JVal.undef none none false JVal.undef

/-- Field access obj.type; undefined on strings (never dereferenced on
undefined in the modeled flows). -/
def typeOf : JVal → JType
  | .obj ty _ _ _ _ _ _ _ => ty
  | _ => JType.undefT

/-- Field access obj.id. -/
def idOf : JVal → JVal
  | .obj _ idv _ _ _ _ _ _ => idv
  | _ => JVal.undef

/-- Field access obj.tagName. -/
def tagNameOf : JVal → JVal
  | .obj _ _ tagv _ _ _ _ _ => tagv
  | _ => JVal.undef

/-- Field access obj.value. -/
def valueOf : JVal → JVal
  | .obj _ _ _ valv _ _ _ _ => valv
  | _ => JVal.undef

/-- Field access obj.attributes. -/
def attrsOf : JVal → Option (List JVal)
  | .obj _ _ _ _ attrs _ _ _ => attrs
  | _ => none

/-- Field access obj.children. -/
def childrenOf : JVal → Option (List JVal)
  | .obj _ _ _ _ _ childs _ _ => childs
  | _ => none

/-- Field access obj.isOpen (undefined is falsy). -/
def isOpenOf : JVal → Bool
  | .obj _ _ _ _ _ _ opn _ => opn
  | _ => false

/-- Field access obj.text. -/
def textOf : JVal → JVal
  | .obj _ _ _ _ _ _ _ tx => tx
  | _ => JVal.undef

/-- Field update obj.children = c (no-op on non-objects, as the modeled
flows only assign into objects). -/
def withChildren : JVal → Option (List JVal) → JVal
  | .obj ty idv tagv valv attrs _ opn tx, c => .obj ty idv tagv valv attrs c opn tx
  | v, _ => v

/-- Field update obj.attributes = a. -/
def withAttrs : JVal → Option (List JVal) → JVal
  | .obj ty idv tagv valv _ childs opn tx, a => .obj ty idv tagv valv a childs opn tx
  | v, _ => v

/-- Field update obj.id = i. -/
def withId : JVal → JVal → JVal
  | .obj ty _ tagv valv attrs childs opn tx, i => .obj ty i tagv valv attrs childs opn tx
  | v, _ => v

/-- JS strict equality (triple equals) restricted to the value domain the
module actually compares: ids and tag names, which are strings or
undefined.  Two objects compare by reference in JS; the module never
reaches an object-to-object comparison on these fields, so objects are
conservatively unequal here. -/
def jsEqV : JVal → JVal → Bool
  | .str a, .str b => a == b
  | .undef, .undef => true
  | _, _ => false

/-- The typeof obj equals the string type test used by the merge logic. -/
def isStrV : JVal → Bool
  | .str _ => true
  | _ => false

/-- Rendering of a JVal inside a warning message (JS string coercion). -/
def jvShow : JVal → String
  | .str s => s
  | .undef => "undefined"
  | .obj _ _ _ _ _ _ _ _ => "[object Object]"

/-- Builder state of TemplateStack: startID, result, the open-element
stack (head of the list is the top, i.e. the end of the JS array), and the
accumulated logger.warn messages. -/
structure TSState : Type where
  startID : String
  result : List JVal
  stack : List JVal
  warns : List String

/-- The TemplateStack constructor: empty startID, result and stack. -/
def initTS : TSState := { startID := "", result := [], stack := [], warns := [] }

/-- TemplateStack.prototype.getID: with a non-empty stack the id is
openElem.id + dot + openElem.children.length, otherwise
startID + result.length. -/
def getID (st : TSState) : String :=
  match st.stack with
  | top :: _ =>
    (match idOf top with
     | .str s => s
     | v => jvShow v) ++ "." ++ toString ((childrenOf top).getD []).length
  | [] => st.startID ++ toString st.result.length

/-- TemplateStack.prototype.openElement: build the frame (children [],
type, id; for ELEMENT additionally tagName = value, attributes [],
isOpen = true, otherwise value = value), push it, and return it together
with the new state. -/
def openElementTS (st : TSState) (ty : JType) (v : JVal) : JVal × TSState :=
  let idv := JVal.str (getID st)
  let elem :=
    if ty = JType.num 7 then
      JVal.obj ty idv v JVal.undef (some []) (some []) true JVal.undef
    else
      JVal.obj ty idv JVal.undef v none (some []) false JVal.undef
  (elem, { st with stack := elem :: st.stack })

/-- Keep a children array only when it is non-empty (the guard
obj.children and obj.children.length greater than zero). -/
def keepNonempty : Option (List JVal) → Option (List JVal)
  | some (x :: xs) => some (x :: xs)
  | _ => none

/-- TemplateStack.prototype.processObject: strings pass through; the
switch on obj.type builds the canonical node (children omitted when
empty); the attribute marker types return the object unchanged; any other
type falls through every case and leaves processed as the empty object.
The JS would throw on undefined input (reading .type); that input is
unreachable in the modeled flows and maps to undef here. -/
def processObject : JVal → JVal
  | .str s => .str s
  | .undef => .undef
  | .obj ty idv tagv valv attrs childs opn tx =>
    if ty = JType.num 7 then
      .obj (JType.num 7) JVal.undef tagv JVal.undef attrs (keepNonempty childs) false JVal.undef
    else if ty = JType.tag "comment" then
      .obj (JType.num 9) JVal.undef JVal.undef tx none none false JVal.undef
    else if ty = JType.num 2 ∨ ty = JType.num 3 ∨ ty = JType.num 30 then
      .obj ty JVal.undef JVal.undef valv none none false JVal.undef
    else if ty = JType.num 8 ∨ ty = JType.num 4 ∨ ty = JType.num 51 then
      .obj ty JVal.undef JVal.undef valv none (keepNonempty childs) false JVal.undef
    else if ty = JType.tag "attributename" ∨ ty = JType.tag "attributevalue"
            ∨ ty = JType.tag "attributeend" then
      .obj ty idv tagv valv attrs childs opn tx
    else
      emptyJsObj

/-- Push x onto the end of l, combining adjacent strings: when both x and
the current last entry are strings they are concatenated into one entry. -/
def pushMerge (l : List JVal) (x : JVal) : List JVal :=
  match x with
  | .str b =>
    match l.getLast? with
    | some (.str a) => l.dropLast ++ [.str (a ++ b)]
    | _ => l ++ [.str b]
  | _ => l ++ [x]

/-- The child-processing prefix of _closeElem: when obj.children is
present and non-empty, each child is replaced by its processObject image
(the JS loop assigns obj.children at index i in place). -/
def mapKids (obj : JVal) : JVal :=
  match childrenOf obj with
  | some (c :: cs) => withChildren obj (some ((c :: cs).map processObject))
  | _ => obj

/-- TemplateStack.prototype._closeElem: process the children of obj (when
present and non-empty), then resolve obj into the top frame (its
attributes slot if the top is a still-open ELEMENT, else its children
slot), or into the result (after processObject) when the stack is empty;
all pushes merge adjacent strings. -/
def closeElemP (st : TSState) (obj : JVal) : TSState :=
  let obj1 := mapKids obj
  match st.stack with
  | top :: rest =>
    if typeOf top = JType.num 7 ∧ isOpenOf top = true then
      { st with stack := withAttrs top (some (pushMerge ((attrsOf top).getD []) obj1)) :: rest }
    else
      { st with stack := withChildren top (some (pushMerge ((childrenOf top).getD []) obj1)) :: rest }
  | [] =>
    { st with result := pushMerge st.result (processObject obj1) }

/-- TemplateStack.prototype.createObject: a truthy object whose type is
the string Widget first receives id = getID(); then _closeElem.  The JS
throws inside _closeElem on undefined input before any state change, so
undefined leaves the state unchanged. -/
def createObjectTS (st : TSState) (obj : JVal) : TSState :=
  match obj with
  | .undef => st
  | _ =>
    let obj1 := if typeOf obj = JType.tag "Widget" then withId obj (JVal.str (getID st)) else obj
    closeElemP st obj1

/-- TemplateStack.prototype.createComment: _closeElem on the object with
type the string comment and text tx. -/
def createCommentTS (st : TSState) (tx : JVal) : TSState :=
  closeElemP st (JVal.obj (JType.tag "comment") JVal.undef JVal.undef JVal.undef none none false tx)

/-- The improper-pairing warning emitted on an address mismatch. -/
def mismatchMsg (tagv openIDv idv : JVal) : String :=
  jvShow tagv ++ " tags improperly paired, closing " ++ jvShow openIDv
    ++ " with close tag from " ++ jvShow idv

/-- The warning emitted when closing a non-p element on an empty stack. -/
def emptyCloseMsg (idv : JVal) : String :=
  "Closing element " ++ jvShow idv ++ " when the stack was empty"

/-- The while loop of the mismatch-recovery branch of closeElement: pop
frames, running _closeElem on each popped frame whose tagName differs from
the close request tag name, and stop (dropping the popped frame) at the
first tagName match or when the stack empties.  The fuel argument bounds
the number of pops; since _closeElem preserves the stack length, the
entry-point below supplies fuel equal to the stack length, which is always
sufficient. -/
def unwindF : Nat → TSState → JVal → TSState
  | 0, st, _ => st
  | n + 1, st, tagv =>
    match st.stack with
    | [] => st
    | f :: rest =>
      if jsEqV (tagNameOf f) tagv then { st with stack := rest }
      else unwindF n (closeElemP { st with stack := rest } f) tagv

/-- The mismatch-recovery loop run with fuel equal to the stack length. -/
def unwindTS (st : TSState) (tagv : JVal) : TSState :=
  unwindF st.stack.length st tagv

/-- TemplateStack.prototype.closeElement.  With a non-empty stack: if the
top frame id differs from the close request id, warn once and unwind;
otherwise pop and _closeElem the top frame.  With an empty stack: when the
close request tag name is the string p, recurse once on the element freshly
built by openElement with type the string p and value the empty object
(the paragraph quirk); otherwise warn once.  The fuel only feeds that
single recursion; fuel 2 always suffices (closeElementF_fuel below). -/
def closeElementF : Nat → TSState → JVal → TSState
  | 0, st, _ => st
  | n + 1, st, closing =>
    match st.stack with
    | top :: rest =>
      if jsEqV (idOf top) (idOf closing) = false then
        unwindTS
          { st with warns := st.warns
              ++ [mismatchMsg (tagNameOf closing) (idOf top) (idOf closing)] }
          (tagNameOf closing)
      else
        closeElemP { st with stack := rest } top
    | [] =>
      if jsEqV (tagNameOf closing) (JVal.str "p") then
        let r := openElementTS st (JType.tag "p") emptyJsObj
        closeElementF n r.2 r.1
      else
        { st with warns := st.warns ++ [emptyCloseMsg (idOf closing)] }

/-- closeElement with the always-sufficient fuel 2. -/
def closeElementTS (st : TSState) (closing : JVal) : TSState := closeElementF 2 st closing

/-- The while loop of getOutput: close the top frame (closing element =
the frame itself, so the ids match) until the stack is empty.  Each
iteration shrinks the stack by one, so fuel equal to the stack length is
exact. -/
def flushF : Nat → TSState → TSState
  | 0, st => st
  | n + 1, st =>
    match st.stack with
    | [] => st
    | top :: _ => flushF n (closeElementTS st top)

/-- The state effect of TemplateStack.prototype.getOutput (the returned
value, result or its single entry, reads the state without changing it). -/
def getOutputTS (st : TSState) : TSState := flushF st.stack.length st

/-- One builder operation of the TemplateStack public interface. -/
inductive BOp : Type where
  | openE (ty : JType) (v : JVal)
  | createO (o : JVal)
  | createC (tx : JVal)
  | closeE (c : JVal)
  | popE
  | flushO
  | clearO

/-- Run one builder operation. -/
def runOp (st : TSState) : BOp → TSState
  | .openE ty v => (openElementTS st ty v).2
  | .createO o => createObjectTS st o
  | .createC tx => createCommentTS st tx
  | .closeE c => closeElementTS st c
  | .popE => { st with stack := st.stack.tail }
  | .flushO => getOutputTS st
  | .clearO => { st with result := [], stack := [] }

/-- Run a sequence of builder operations from a given state. -/
def runOps (st : TSState) (ops : List BOp) : TSState := ops.foldl runOp st

/-- Reduction of closeElemP on a non-empty stack. -/
lemma closeElemP_cons (sid : String) (res : List JVal) (top : JVal) (rest : List JVal)
    (ws : List String) (obj : JVal) :
    closeElemP ⟨sid, res, top :: rest, ws⟩ obj =
      if typeOf top = JType.num 7 ∧ isOpenOf top = true then
        ⟨sid, res, withAttrs top (some (pushMerge ((attrsOf top).getD []) (mapKids obj))) :: rest, ws⟩
      else
        ⟨sid, res, withChildren top (some (pushMerge ((childrenOf top).getD []) (mapKids obj))) :: rest, ws⟩ := rfl

/-- Reduction of closeElemP on an empty stack. -/
lemma closeElemP_nil (sid : String) (res : List JVal) (ws : List String) (obj : JVal) :
    closeElemP ⟨sid, res, [], ws⟩ obj =
      ⟨sid, pushMerge res (processObject (mapKids obj)), [], ws⟩ := rfl

/-- Reduction of unwindF with fuel left and a non-empty stack. -/
lemma unwindF_succ_cons (n : Nat) (sid : String) (res : List JVal) (f : JVal)
    (rest : List JVal) (ws : List String) (tagv : JVal) :
    unwindF (n + 1) ⟨sid, res, f :: rest, ws⟩ tagv =
      if jsEqV (tagNameOf f) tagv then ⟨sid, res, rest, ws⟩
      else unwindF n (closeElemP ⟨sid, res, rest, ws⟩ f) tagv := rfl

/-- Reduction of unwindF with fuel left and an empty stack. -/
lemma unwindF_succ_nil (n : Nat) (sid : String) (res : List JVal) (ws : List String)
    (tagv : JVal) :
    unwindF (n + 1) ⟨sid, res, [], ws⟩ tagv = ⟨sid, res, [], ws⟩ := rfl

/-- Reduction of closeElementF with fuel left and a non-empty stack. -/
lemma closeElementF_succ_cons (n : Nat) (sid : String) (res : List JVal) (top : JVal)
    (rest : List JVal) (ws : List String) (c : JVal) :
    closeElementF (n + 1) ⟨sid, res, top :: rest, ws⟩ c =
      if jsEqV (idOf top) (idOf c) = false then
        unwindTS ⟨sid, res, top :: rest, ws ++ [mismatchMsg (tagNameOf c) (idOf top) (idOf c)]⟩
          (tagNameOf c)
      else closeElemP ⟨sid, res, rest, ws⟩ top := rfl

/-- Reduction of closeElementF with fuel left and an empty stack. -/
lemma closeElementF_succ_nil (n : Nat) (sid : String) (res : List JVal) (ws : List String)
    (c : JVal) :
    closeElementF (n + 1) ⟨sid, res, [], ws⟩ c =
      if jsEqV (tagNameOf c) (JVal.str "p") then
        closeElementF n (openElementTS ⟨sid, res, [], ws⟩ (JType.tag "p") emptyJsObj).2
          (openElementTS ⟨sid, res, [], ws⟩ (JType.tag "p") emptyJsObj).1
      else ⟨sid, res, [], ws ++ [emptyCloseMsg (idOf c)]⟩ := rfl

/-- Reduction of flushF with fuel left and a non-empty stack. -/
lemma flushF_succ_cons (n : Nat) (sid : String) (res : List JVal) (top : JVal)
    (rest : List JVal) (ws : List String) :
    flushF (n + 1) ⟨sid, res, top :: rest, ws⟩ =
      flushF n (closeElementTS ⟨sid, res, top :: rest, ws⟩ top) := rfl

lemma openElementTS_fst (st : TSState) (ty : JType) (v : JVal) :
    (openElementTS st ty v).1 =
      (if ty = JType.num 7 then
        JVal.obj ty (JVal.str (getID st)) v JVal.undef (some []) (some []) true JVal.undef
      else
        JVal.obj ty (JVal.str (getID st)) JVal.undef v none (some []) false JVal.undef) := by
  unfold openElementTS
  by_cases hty : ty = JType.num 7 <;> simp [hty]

lemma openElementTS_snd (st : TSState) (ty : JType) (v : JVal) :
    (openElementTS st ty v).2 = { st with stack := (openElementTS st ty v).1 :: st.stack } := by
  unfold openElementTS
  by_cases hty : ty = JType.num 7 <;> simp [hty]

lemma childrenOf_openElementTS_fst (st : TSState) (ty : JType) (v : JVal) :
    childrenOf (openElementTS st ty v).1 = some [] := by
  rw [openElementTS_fst]
  by_cases hty : ty = JType.num 7 <;> simp [hty, childrenOf]

/-- No two adjacent entries of the list are both plain strings. -/
def noTwoStr : List JVal → Bool
  | [] => true
  | [_] => true
  | a :: b :: r => !(isStrV a && isStrV b) && noTwoStr (b :: r)

/-- Whether the last entry of the list is a plain string. -/
def lastIsStr (l : List JVal) : Bool :=
  match l.getLast? with
  | some (.str _) => true
  | _ => false

lemma noTwoStr_cons_cons (a b : JVal) (r : List JVal) :
    noTwoStr (a :: b :: r) = (!(isStrV a && isStrV b) && noTwoStr (b :: r)) := rfl

lemma noTwoStr_append_single (l : List JVal) (x : JVal)
    (hl : noTwoStr l = true) (hx : isStrV x = false ∨ lastIsStr l = false) :
    noTwoStr (l ++ [x]) = true := by
  induction l with
  | nil => cases x <;> rfl
  | cons a t ih =>
    cases t with
    | nil =>
      have hfalse : (isStrV a && isStrV x) = false := by
        rcases hx with hx | hx
        · rw [hx, Bool.and_false]
        · cases a with
          | str s => simp [lastIsStr] at hx
          | undef => rfl
          | obj ty idv tagv valv attrs childs opn tx => rfl
      show (!(isStrV a && isStrV x) && noTwoStr [x]) = true
      rw [hfalse]
      cases x <;> rfl
    | cons b r =>
      simp only [List.cons_append] at ih ⊢
      rw [noTwoStr_cons_cons] at hl
      rw [noTwoStr_cons_cons]
      simp only [Bool.and_eq_true] at hl ⊢
      refine ⟨hl.1, ih hl.2 ?_⟩
      rcases hx with hx | hx
      · exact Or.inl hx
      · refine Or.inr ?_
        simpa only [lastIsStr, List.getLast?_cons_cons] using hx

lemma noTwoStr_dropLast_merge (l : List JVal) (a c : String)
    (hlast : l.getLast? = some (JVal.str a)) (hl : noTwoStr l = true) :
    noTwoStr (l.dropLast ++ [JVal.str c]) = true := by
  induction l with
  | nil => simp at hlast
  | cons y t ih =>
    cases t with
    | nil => rfl
    | cons b r =>
      rw [List.getLast?_cons_cons] at hlast
      rw [noTwoStr_cons_cons] at hl
      simp only [Bool.and_eq_true] at hl
      have hd : (y :: b :: r).dropLast = y :: (b :: r).dropLast := rfl
      rw [hd, List.cons_append]
      have ihr := ih hlast hl.2
      cases r with
      | nil =>
        have hb : b = JVal.str a := by simpa using hlast
        subst hb
        show (!(isStrV y && isStrV (JVal.str c)) && noTwoStr [JVal.str c]) = true
        have hy : isStrV y = false := by
          have h1 := hl.1
          simp only [Bool.not_eq_true'] at h1
          rcases Bool.and_eq_false_iff.mp h1 with h | h
          · exact h
          · exact absurd h (by simp [isStrV])
        rw [hy]
        rfl
      | cons r0 rs =>
        have hd2 : (b :: r0 :: rs).dropLast = b :: (r0 :: rs).dropLast := rfl
        rw [hd2] at ihr ⊢
        rw [List.cons_append] at ihr ⊢
        rw [noTwoStr_cons_cons]
        simp only [Bool.and_eq_true]
        exact ⟨hl.1, ihr⟩

lemma pushMerge_noTwoStr (l : List JVal) (x : JVal) (hl : noTwoStr l = true) :
    noTwoStr (pushMerge l x) = true := by
  cases x with
  | str b =>
    simp only [pushMerge]
    split
    · next a heq => exact noTwoStr_dropLast_merge l a _ heq hl
    · next hne =>
      refine noTwoStr_append_single l _ hl (Or.inr ?_)
      unfold lastIsStr
      rcases h2 : l.getLast? with _ | v
      · rfl
      · cases v with
        | str s => exact ((by simpa [h2] using hne s : False)).elim
        | undef => rfl
        | obj ty idv tagv valv attrs childs opn tx => rfl
  | undef => exact noTwoStr_append_single l _ hl (Or.inl rfl)
  | obj ty idv tagv valv attrs childs opn tx =>
    exact noTwoStr_append_single l _ hl (Or.inl rfl)

lemma isStrV_processObject (v : JVal) : isStrV (processObject v) = isStrV v := by
  cases v with
  | str s => rfl
  | undef => rfl
  | obj ty idv tagv valv attrs childs opn tx =>
    simp only [processObject]
    split
    · rfl
    · split
      · rfl
      · split
        · rfl
        · split
          · rfl
          · split <;> rfl

lemma noTwoStr_map_processObject (l : List JVal) :
    noTwoStr (l.map processObject) = noTwoStr l := by
  induction l with
  | nil => rfl
  | cons a t ih =>
    cases t with
    | nil => rfl
    | cons b r =>
      simp only [List.map_cons] at ih ⊢
      rw [noTwoStr_cons_cons, noTwoStr_cons_cons, ih,
        isStrV_processObject, isStrV_processObject]

/-- The invariant of claim C8: the top-level result and every open frame
children array are free of adjacent plain-string entries. -/
def goodTS (st : TSState) : Prop :=
  noTwoStr st.result = true ∧ ∀ f ∈ st.stack, noTwoStr ((childrenOf f).getD []) = true

lemma childrenOf_withAttrs (v : JVal) (a : Option (List JVal)) :
    childrenOf (withAttrs v a) = childrenOf v := by
  cases v <;> rfl

lemma childrenOf_withChildren_obj (v : JVal) (c : Option (List JVal)) :
    childrenOf (withChildren v c) = c ∨ withChildren v c = v := by
  cases v with
  | obj ty idv tagv valv attrs childs opn tx => exact Or.inl rfl
  | str s => exact Or.inr rfl
  | undef => exact Or.inr rfl

lemma closeElemP_good (st : TSState) (obj : JVal) (h : goodTS st) :
    goodTS (closeElemP st obj) := by
  obtain ⟨sid, res, stk, ws⟩ := st
  obtain ⟨hres, hstk⟩ := h
  cases stk with
  | nil =>
    rw [closeElemP_nil]
    exact ⟨pushMerge_noTwoStr _ _ hres, by intro f hf; simp at hf⟩
  | cons top rest =>
    have htop := hstk top (by simp)
    have hrest : ∀ f ∈ rest, noTwoStr ((childrenOf f).getD []) = true := by
      intro f hf; exact hstk f (by simp [hf])
    rw [closeElemP_cons]
    split
    · refine ⟨hres, ?_⟩
      intro f hf
      simp only [List.mem_cons] at hf
      rcases hf with hf | hf
      · subst hf; rw [childrenOf_withAttrs]; exact htop
      · exact hrest f hf
    · refine ⟨hres, ?_⟩
      intro f hf
      simp only [List.mem_cons] at hf
      rcases hf with hf | hf
      · subst hf
        rcases childrenOf_withChildren_obj top
            (some (pushMerge ((childrenOf top).getD []) (mapKids obj))) with hc | hc
        · rw [hc]
          exact pushMerge_noTwoStr _ _ htop
        · rw [hc]; exact htop
      · exact hrest f hf

lemma unwindF_good (n : Nat) (st : TSState) (tagv : JVal) (h : goodTS st) :
    goodTS (unwindF n st tagv) := by
  induction n generalizing st with
  | zero => exact h
  | succ n ih =>
    obtain ⟨sid, res, stk, ws⟩ := st
    obtain ⟨hres, hstk⟩ := h
    cases stk with
    | nil => exact ⟨hres, hstk⟩
    | cons f rest =>
      have hrest : ∀ g ∈ rest, noTwoStr ((childrenOf g).getD []) = true := by
        intro g hg; exact hstk g (by simp [hg])
      rw [unwindF_succ_cons]
      split
      · exact ⟨hres, hrest⟩
      · exact ih _ (closeElemP_good _ _ ⟨hres, hrest⟩)

lemma openElementTS_good (st : TSState) (ty : JType) (v : JVal) (h : goodTS st) :
    goodTS (openElementTS st ty v).2 := by
  rw [openElementTS_snd]
  refine ⟨h.1, ?_⟩
  intro f hf
  simp only [List.mem_cons] at hf
  rcases hf with hf | hf
  · subst hf
    rw [childrenOf_openElementTS_fst]
    rfl
  · exact h.2 f hf

lemma unwindTS_good (st : TSState) (tagv : JVal) (h : goodTS st) :
    goodTS (unwindTS st tagv) := unwindF_good _ _ _ h

lemma closeElementF_good (n : Nat) (st : TSState) (c : JVal) (h : goodTS st) :
    goodTS (closeElementF n st c) := by
  induction n generalizing st c with
  | zero => exact h
  | succ n ih =>
    obtain ⟨sid, res, stk, ws⟩ := st
    cases stk with
    | nil =>
      rw [closeElementF_succ_nil]
      split
      · exact ih _ _ (openElementTS_good _ _ _ ⟨h.1, h.2⟩)
      · exact ⟨h.1, fun f hf => h.2 f hf⟩
    | cons top rest =>
      have hrest : ∀ g ∈ rest, noTwoStr ((childrenOf g).getD []) = true := by
        intro g hg; exact h.2 g (by simp [hg])
      rw [closeElementF_succ_cons]
      split
      · exact unwindTS_good _ _ ⟨h.1, fun g hg => h.2 g hg⟩
      · exact closeElemP_good _ _ ⟨h.1, hrest⟩

lemma closeElementTS_good (st : TSState) (c : JVal) (h : goodTS st) :
    goodTS (closeElementTS st c) := closeElementF_good _ _ _ h

lemma flushF_good (n : Nat) (st : TSState) (h : goodTS st) : goodTS (flushF n st) := by
  induction n generalizing st with
  | zero => exact h
  | succ n ih =>
    obtain ⟨sid, res, stk, ws⟩ := st
    cases stk with
    | nil => exact h
    | cons top rest =>
      rw [flushF_succ_cons]
      exact ih _ (closeElementTS_good _ _ h)

lemma runOp_good (st : TSState) (op : BOp) (h : goodTS st) : goodTS (runOp st op) := by
  cases op with
  | openE ty v => exact openElementTS_good _ _ _ h
  | createO o =>
    cases o with
    | undef => exact h
    | str s => exact closeElemP_good _ _ h
    | obj ty idv tagv valv attrs childs opn tx => exact closeElemP_good _ _ h
  | createC tx => exact closeElemP_good _ _ h
  | closeE c => exact closeElementTS_good _ _ h
  | popE =>
    refine ⟨h.1, ?_⟩
    intro f hf
    exact h.2 f (List.mem_of_mem_tail hf)
  | flushO => exact flushF_good _ _ h
  | clearO => exact ⟨rfl, fun f hf => (List.not_mem_nil f hf).elim⟩

lemma runOps_good (ops : List BOp) (st : TSState) (h : goodTS st) :
    goodTS (runOps st ops) := by
  induction ops generalizing st with
  | nil => exact h
  | cons op rest ih => exact ih _ (runOp_good _ _ h)

/-- Whether a JVal is an object. -/
def isObjV : JVal → Bool
  | .obj _ _ _ _ _ _ _ _ => true
  | _ => false

lemma tagNameOf_withAttrs (v : JVal) (a : Option (List JVal)) :
    tagNameOf (withAttrs v a) = tagNameOf v := by
  cases v <;> rfl

lemma tagNameOf_withChildren (v : JVal) (c : Option (List JVal)) :
    tagNameOf (withChildren v c) = tagNameOf v := by
  cases v <;> rfl

lemma idOf_withChildren (v : JVal) (c : Option (List JVal)) :
    idOf (withChildren v c) = idOf v := by
  cases v <;> rfl

lemma idOf_mapKids (v : JVal) : idOf (mapKids v) = idOf v := by
  unfold mapKids
  split
  · rw [idOf_withChildren]
  · rfl

lemma closeElemP_stack_tags (st : TSState) (obj : JVal) :
    (closeElemP st obj).stack.map tagNameOf = st.stack.map tagNameOf := by
  obtain ⟨sid, res, stk, ws⟩ := st
  cases stk with
  | nil => rw [closeElemP_nil]
  | cons top rest =>
    rw [closeElemP_cons]
    split <;> simp [tagNameOf_withAttrs, tagNameOf_withChildren]

lemma closeElemP_stack_length (st : TSState) (obj : JVal) :
    (closeElemP st obj).stack.length = st.stack.length := by
  have h := closeElemP_stack_tags st obj
  have h1 := congrArg List.length h
  simpa using h1

lemma closeElemP_warns (st : TSState) (obj : JVal) :
    (closeElemP st obj).warns = st.warns := by
  obtain ⟨sid, res, stk, ws⟩ := st
  cases stk with
  | nil => rw [closeElemP_nil]
  | cons top rest =>
    rw [closeElemP_cons]
    split <;> rfl

/-- Specification-side description of the unwind effect on the stack: drop
tag names from the top until (and including) the first one that matches
the closing tag name; when none matches, everything is dropped. -/
def tagsAfter (l : List JVal) (tagv : JVal) : List JVal :=
  match l with
  | [] => []
  | t :: rest => if jsEqV t tagv then rest else tagsAfter rest tagv

lemma tagsAfter_cons (t : JVal) (rest : List JVal) (tagv : JVal) :
    tagsAfter (t :: rest) tagv = if jsEqV t tagv then rest else tagsAfter rest tagv := rfl

lemma unwindF_spec (n : Nat) (st : TSState) (tagv : JVal)
    (hn : st.stack.length ≤ n) :
    (unwindF n st tagv).stack.map tagNameOf = tagsAfter (st.stack.map tagNameOf) tagv ∧
    (unwindF n st tagv).warns = st.warns := by
  induction n generalizing st with
  | zero =>
    obtain ⟨sid, res, stk, ws⟩ := st
    cases stk with
    | nil => exact ⟨rfl, rfl⟩
    | cons f rest => simp at hn
  | succ n ih =>
    obtain ⟨sid, res, stk, ws⟩ := st
    cases stk with
    | nil => exact ⟨rfl, rfl⟩
    | cons f rest =>
      rw [unwindF_succ_cons]
      by_cases hm : jsEqV (tagNameOf f) tagv = true
      · rw [if_pos hm]
        constructor
        · show List.map tagNameOf rest = tagsAfter (tagNameOf f :: List.map tagNameOf rest) tagv
          rw [tagsAfter_cons, if_pos hm]
        · rfl
      · rw [if_neg hm]
        have hlen : (closeElemP ⟨sid, res, rest, ws⟩ f).stack.length ≤ n := by
          rw [closeElemP_stack_length]
          simpa using Nat.le_of_succ_le_succ hn
        obtain ⟨h1, h2⟩ := ih _ hlen
        constructor
        · rw [h1, closeElemP_stack_tags]
          show tagsAfter (List.map tagNameOf rest) tagv
              = tagsAfter (tagNameOf f :: List.map tagNameOf rest) tagv
          rw [tagsAfter_cons, if_neg hm]
        · rw [h2, closeElemP_warns]

lemma openElementTS_snd_stack_ne (st : TSState) (ty : JType) (v : JVal) :
    (openElementTS st ty v).2.stack = (openElementTS st ty v).1 :: st.stack := by
  rw [openElementTS_snd]

lemma closeElementF_fuel (n : Nat) (st : TSState) (c : JVal) :
    closeElementF (n + 2) st c = closeElementTS st c := by
  obtain ⟨sid, res, stk, ws⟩ := st
  unfold closeElementTS
  cases stk with
  | cons top rest =>
    rw [show n + 2 = (n + 1) + 1 from rfl, closeElementF_succ_cons,
      show (2 : Nat) = 1 + 1 from rfl, closeElementF_succ_cons]
  | nil =>
    rw [show n + 2 = (n + 1) + 1 from rfl, closeElementF_succ_nil,
      show (2 : Nat) = 1 + 1 from rfl, closeElementF_succ_nil]
    by_cases hp : jsEqV (tagNameOf c) (JVal.str "p") = true
    · rw [if_pos hp, if_pos hp]
      generalize hst2 : (openElementTS ⟨sid, res, [], ws⟩ (JType.tag "p") emptyJsObj).2 = st2
      generalize helem : (openElementTS ⟨sid, res, [], ws⟩ (JType.tag "p") emptyJsObj).1 = e
      have hstk2 : st2.stack = e :: [] := by
        rw [← hst2, ← helem, openElementTS_snd_stack_ne]
      obtain ⟨sid2, res2, stk2, ws2⟩ := st2
      simp only at hstk2
      subst hstk2
      rw [closeElementF_succ_cons, closeElementF_succ_cons]
    · rw [if_neg hp, if_neg hp]

lemma isStrV_withChildren (v : JVal) (c : Option (List JVal)) :
    isStrV (withChildren v c) = isStrV v := by
  cases v <;> rfl

lemma isStrV_withId (v i : JVal) : isStrV (withId v i) = isStrV v := by
  cases v <;> rfl

lemma isStrV_mapKids (v : JVal) : isStrV (mapKids v) = isStrV v := by
  unfold mapKids
  split
  · rw [isStrV_withChildren]
  · rfl

lemma pushMerge_not_str (l : List JVal) (x : JVal) (hx : isStrV x = false) :
    pushMerge l x = l ++ [x] := by
  cases x with
  | str s => simp [isStrV] at hx
  | undef => rfl
  | obj ty idv tagv valv attrs childs opn tx => rfl

lemma childrenOf_withChildren_of_obj (v : JVal) (c : Option (List JVal))
    (h : isObjV v = true) : childrenOf (withChildren v c) = c := by
  cases v with
  | obj ty idv tagv valv attrs childs opn tx => rfl
  | str s => simp [isObjV] at h
  | undef => simp [isObjV] at h

lemma keepNonempty_ne_empty (c : Option (List JVal)) : keepNonempty c ≠ some [] := by
  cases c with
  | none => simp [keepNonempty]
  | some l => cases l <;> simp [keepNonempty]

/-- Claim C2 counterexample input: a stack holding an open span frame over
an open div frame. -/
def c2div : JVal :=
  JVal.obj (JType.num 7) (JVal.str "0") (JVal.str "div") JVal.undef (some []) (some []) true JVal.undef

/-- Claim C2 counterexample input: the top frame with tag name span. -/
def c2span : JVal :=
  JVal.obj (JType.num 7) (JVal.str "0.0") (JVal.str "span") JVal.undef (some []) (some []) true JVal.undef

/-- Claim C2 counterexample builder state. -/
def c2st : TSState := ⟨"", [], [c2span, c2div], []⟩

/-- Claim C2 counterexample close request: tag name span, mismatching id. -/
def c2close : JVal :=
  JVal.obj (JType.num 7) (JVal.str "9.9") (JVal.str "span") JVal.undef none none false JVal.undef

/-- C2 counterexample: on a mismatched close request whose tag name matches
the top frame, closeElement pops and discards the matching frame, so the
stack afterwards is neither empty nor headed by a frame whose tag name
matches the close request, contradicting the claim that the stack is left
either empty or with a tag-name match at the top. -/
theorem c2_close_mismatch_top_cex :
    jsEqV (idOf c2span) (idOf c2close) = false ∧
    ¬((closeElementTS c2st c2close).stack = []
      ∨ jsEqV (tagNameOf ((closeElementTS c2st c2close).stack.headI)) (tagNameOf c2close) = true) := by
  constructor
  · rfl
  · intro h
    have hst : (closeElementTS c2st c2close).stack = [c2div] := rfl
    rw [hst] at h
    rcases h with h | h
    · exact List.cons_ne_nil _ _ h
    · exact absurd h (by decide)

/-- C2 (amended): closeElement always terminates (fuel two suffices for
every stack and close request), and on an address mismatch it emits
exactly one diagnostic naming the expected and actual address and unwinds
the stack by popping frames until the first frame whose tag name equals
the close request tag name (finalizing each non-matching popped frame via
_closeElem); the matching frame itself is popped and discarded, so the
stack is left at the portion strictly below the matching frame (or empty
when no frame matches), whose new top need not match. -/
theorem c2_close_mismatch_amended :
    (∀ (n : Nat) (st : TSState) (c : JVal), closeElementF (n + 2) st c = closeElementTS st c) ∧
    (∀ (st : TSState) (c top : JVal) (rest : List JVal), st.stack = top :: rest →
      jsEqV (idOf top) (idOf c) = false →
      (closeElementTS st c).stack.map tagNameOf
          = tagsAfter (st.stack.map tagNameOf) (tagNameOf c) ∧
      (closeElementTS st c).warns
          = st.warns ++ [mismatchMsg (tagNameOf c) (idOf top) (idOf c)]) := by
  constructor
  · exact closeElementF_fuel
  · intro st c top rest hstk hid
    obtain ⟨sid, res, stk, ws⟩ := st
    simp only at hstk
    subst hstk
    unfold closeElementTS
    rw [show (2 : Nat) = 1 + 1 from rfl, closeElementF_succ_cons, if_pos hid]
    unfold unwindTS
    exact unwindF_spec _ _ _ (Nat.le_refl _)

/-- C2 witness: the amended theorem applied to the concrete two-frame
stack and mismatched span close request. -/
theorem c2_close_mismatch_witness :
    (closeElementTS c2st c2close).stack.map tagNameOf
        = tagsAfter (c2st.stack.map tagNameOf) (tagNameOf c2close) ∧
    (closeElementTS c2st c2close).warns
        = c2st.warns ++ [mismatchMsg (tagNameOf c2close) (idOf c2span) (idOf c2close)] :=
  c2_close_mismatch_amended.2 c2st c2close c2span [c2div] rfl rfl

/-- Claim C3 failing input: a close request for tag name p with an empty
stack. -/
def c3closeP : JVal :=
  JVal.obj (JType.num 7) (JVal.str "x") (JVal.str "p") JVal.undef none none false JVal.undef

/-- Claim C3 second input: a close request for tag name div with an empty
stack. -/
def c3closeDiv : JVal :=
  JVal.obj (JType.num 7) (JVal.str "x") (JVal.str "div") JVal.undef none none false JVal.undef

/-- C3 evaluation at the failing input: closing p on an empty stack
appends exactly one node with no diagnostic, but that node is the empty
object (the synthesized frame is built by openElement with the string p as
its type and the empty object as its value, so it carries neither the
ELEMENT type tag nor a tagName, and processObject normalizes it to the
empty object): it is not an empty p element and cannot render as an
open-close p pair.  For any other tag name the code emits one diagnostic
and leaves the state otherwise unchanged, as the claim states. -/
theorem c3_empty_stack_p_quirk_eval :
    closeElementTS initTS c3closeP = { initTS with result := [emptyJsObj] } ∧
    typeOf emptyJsObj ≠ JType.num 7 ∧
    tagNameOf emptyJsObj ≠ JVal.str "p" ∧
    (closeElementTS initTS c3closeP).warns = [] ∧
    closeElementTS initTS c3closeDiv
      = { initTS with warns := ["Closing element x when the stack was empty"] } := by
  refine ⟨rfl, ?_, ?_, rfl, rfl⟩
  · intro h
    exact JType.noConfusion h
  · intro h
    exact JVal.noConfusion h

/-- Claim C7 counterexample input: an element frame with empty attributes
and empty children. -/
def c7elemFrame : JVal :=
  JVal.obj (JType.num 7) (JVal.str "0") (JVal.str "div") JVal.undef (some []) (some []) true JVal.undef

/-- C7 counterexample: normalizing an element frame with no attributes
omits the empty children array but copies the attributes array verbatim,
so the normalized node does contain an empty collection, contradicting the
claim that normalization never emits an empty collection. -/
theorem c7_process_object_cex :
    childrenOf (processObject c7elemFrame) = none ∧
    attrsOf (processObject c7elemFrame) = some [] := ⟨rfl, rfl⟩

/-- C7 (amended): for Element, Partial, Section and SectionUnless frames
alike, processObject omits the children key exactly when the children
sequence is empty or absent, copies a non-empty children sequence
verbatim (loss-free), and never emits an empty children collection; the
attributes array of an Element frame is copied verbatim and may be an
empty collection. -/
theorem c7_process_object_amended (ty : JType) (idv tagv valv : JVal)
    (attrs childs : Option (List JVal)) (opn : Bool) (tx : JVal)
    (hty : ty = JType.num 7 ∨ ty = JType.num 8 ∨ ty = JType.num 4 ∨ ty = JType.num 51) :
    (∀ xs, childs = some xs → xs ≠ [] →
      childrenOf (processObject (JVal.obj ty idv tagv valv attrs childs opn tx)) = some xs) ∧
    ((childs = some [] ∨ childs = none) →
      childrenOf (processObject (JVal.obj ty idv tagv valv attrs childs opn tx)) = none) ∧
    childrenOf (processObject (JVal.obj ty idv tagv valv attrs childs opn tx)) ≠ some [] ∧
    (ty = JType.num 7 → attrsOf (processObject (JVal.obj ty idv tagv valv attrs childs opn tx)) = attrs) := by
  have hch : childrenOf (processObject (JVal.obj ty idv tagv valv attrs childs opn tx))
      = keepNonempty childs := by
    rcases hty with h | h | h | h <;> subst h <;> rfl
  refine ⟨?_, ?_, ?_, ?_⟩
  · intro xs hxs hne
    subst hxs
    cases xs with
    | nil => exact absurd rfl hne
    | cons y ys => rw [hch]; rfl
  · intro h
    rcases h with h | h <;> subst h <;> rw [hch] <;> rfl
  · rw [hch]
    exact keepNonempty_ne_empty childs
  · intro h7
    subst h7
    rfl

/-- C7 witness: the amended theorem applied to a Section frame with one
text child. -/
theorem c7_process_object_witness :
    childrenOf (processObject (JVal.obj (JType.num 4) JVal.undef JVal.undef (JVal.str "s")
      none (some [JVal.str "t"]) false JVal.undef)) = some [JVal.str "t"] :=
  (c7_process_object_amended (JType.num 4) JVal.undef JVal.undef (JVal.str "s")
    none (some [JVal.str "t"]) false JVal.undef
    (Or.inr (Or.inr (Or.inl rfl)))).1 [JVal.str "t"] rfl (List.cons_ne_nil _ _)

/-- C8: for every sequence of builder operations run from a fresh
TemplateStack, the top-level result sequence and the children sequence of
every open frame never contain two adjacent plain-string entries — the
merge in _closeElem concatenates a resolved string onto a string last
entry instead of appending it separately. -/
theorem c8_text_merge_invariant (ops : List BOp) :
    noTwoStr (runOps initTS ops).result = true ∧
    ((runOps initTS ops).stack.all fun f => noTwoStr ((childrenOf f).getD [])) = true := by
  have h := runOps_good ops initTS ⟨rfl, fun f hf => (List.not_mem_nil f hf).elim⟩
  exact ⟨h.1, List.all_eq_true.mpr fun f hf => h.2 f hf⟩

/-- Claim C9 concrete frame: an open Section frame (not an Element, so
resolved objects land in its children slot). -/
def c9top : JVal :=
  JVal.obj (JType.num 4) (JVal.str "0") JVal.undef (JVal.str "items") none (some []) false JVal.undef

/-- Claim C9 concrete builder state. -/
def c9st : TSState := ⟨"", [], [c9top], []⟩

/-- Claim C9 concrete Widget object. -/
def c9wobj : JVal :=
  JVal.obj (JType.tag "Widget") JVal.undef JVal.undef JVal.undef none none false JVal.undef

/-- C9: createObject assigns the builder address getID() to the id field
of the resolved object exactly when its type field is the string Widget;
any other object is resolved into the parent children slot with its id
field untouched. -/
theorem c9_widget_id_assignment (st : TSState) (top : JVal) (rest : List JVal)
    (ty : JType) (idv tagv valv : JVal) (attrs childs : Option (List JVal)) (opn : Bool) (tx : JVal)
    (hstk : st.stack = top :: rest)
    (hobj : isObjV top = true)
    (hna : ¬(typeOf top = JType.num 7 ∧ isOpenOf top = true)) :
    (ty = JType.tag "Widget" →
      ((childrenOf ((createObjectTS st (JVal.obj ty idv tagv valv attrs childs opn tx)).stack.headI)).getD []).getLast?
        = some (mapKids (withId (JVal.obj ty idv tagv valv attrs childs opn tx) (JVal.str (getID st)))) ∧
      idOf (mapKids (withId (JVal.obj ty idv tagv valv attrs childs opn tx) (JVal.str (getID st))))
        = JVal.str (getID st)) ∧
    (ty ≠ JType.tag "Widget" →
      ((childrenOf ((createObjectTS st (JVal.obj ty idv tagv valv attrs childs opn tx)).stack.headI)).getD []).getLast?
        = some (mapKids (JVal.obj ty idv tagv valv attrs childs opn tx)) ∧
      idOf (mapKids (JVal.obj ty idv tagv valv attrs childs opn tx)) = idv) := by
  obtain ⟨sid, res, stk, ws⟩ := st
  simp only at hstk
  subst hstk
  have hrun : createObjectTS ⟨sid, res, top :: rest, ws⟩
      (JVal.obj ty idv tagv valv attrs childs opn tx)
    = closeElemP ⟨sid, res, top :: rest, ws⟩
        (if ty = JType.tag "Widget" then
          withId (JVal.obj ty idv tagv valv attrs childs opn tx)
            (JVal.str (getID ⟨sid, res, top :: rest, ws⟩))
        else JVal.obj ty idv tagv valv attrs childs opn tx) := rfl
  constructor
  · intro hw
    rw [hrun, if_pos hw, closeElemP_cons, if_neg hna]
    constructor
    · show ((childrenOf (withChildren top _)).getD []).getLast? = _
      rw [childrenOf_withChildren_of_obj top _ hobj]
      rw [pushMerge_not_str _ _ (by rw [isStrV_mapKids, isStrV_withId]; rfl)]
      simp only [Option.getD_some]
      exact List.getLast?_concat _
    · rw [idOf_mapKids]
      rfl
  · intro hw
    rw [hrun, if_neg hw, closeElemP_cons, if_neg hna]
    constructor
    · show ((childrenOf (withChildren top _)).getD []).getLast? = _
      rw [childrenOf_withChildren_of_obj top _ hobj]
      rw [pushMerge_not_str _ _ (by rw [isStrV_mapKids]; rfl)]
      simp only [Option.getD_some]
      exact List.getLast?_concat _
    · rw [idOf_mapKids]
      rfl

/-- C9 witness: a Widget object resolved under an open Section frame
receives the builder address as its id. -/
theorem c9_widget_id_assignment_witness :
    ((childrenOf ((createObjectTS c9st c9wobj).stack.headI)).getD []).getLast?
      = some (mapKids (withId c9wobj (JVal.str (getID c9st)))) ∧
    idOf (mapKids (withId c9wobj (JVal.str (getID c9st)))) = JVal.str (getID c9st) :=
  (c9_widget_id_assignment c9st c9top [] (JType.tag "Widget") JVal.undef JVal.undef JVal.undef
    none none false JVal.undef rfl rfl (by decide)).1 rfl

/-
  Part B: src/template/template.js.

  The compiled template graph uses the compact ractive keys: t (numeric
  type tag), e (tag name), a (attributes), f (children), r (reference).
  attachViews reads t, root, a.class, f, and the partial name; nodes are
  modeled with exactly those fields.  Underscore helpers: _.keys gives the
  insertion-ordered key list of childViews, _.clone is a shallow clone
  (the identity at the structural-value level used here), _.flatten with
  shallow = true splices nested arrays one level.  Context.isArray is the
  array test.  Context.getInterpolatorKey is not under src:
  Modelled from the spec, it extracts the partial node's name (its
  reference key r).  The process-wide registeredPartials object is passed
  as the reg argument.  logger.warn is collected in a list.

  attachViews mutates its input (array slots and the children field are
  assigned in place), so the embedding computes the pair of the returned
  graph and the post-call structural value of the input graph, plus the
  warnings: attachRes fuel view ww partials reg childClasses node is
  some (result, postInput, warnings), or none when the fuel is exhausted
  (the JS diverges on partial cycles) or when the JS would throw (null or
  undefined input).
-/

/-- One member of a mixed class attribute array: a static string or a
dynamic expression node (unknowable at attachment time). -/
inductive ClsPart : Type where
  | cs (s : String)
  | dyn (n : Nat)

/-- The value of template.a.class: a single static string or a mixed
array of static strings and dynamic nodes. -/
inductive ClsV : Type where
  | one (s : String)
  | many (ps : List ClsPart)

mutual
/-- A template graph value: a string, null, undefined, an array, a
compiled node (fields root, t, a.class, f, r), or a Widget placeholder
(constructor reference, childView, the wrapped original subtree inside a
new Template, and that Template's partials). -/
inductive TNode : Type where
  | str (s : String)
  | nullN
  | undefN
  | arr (xs : List TNode)
  | node (root : Bool) (t : Option Nat) (acls : Option ClsV) (f : Option (List TNode)) (r : Option String)
  | widget (ww : Nat) (comp : Option Nat) (tmplObj : TNode) (tps : PMap)
/-- An entry of a partials dictionary: a raw compiled graph, a Template
with defined partials (possibly the empty, still truthy, object), or a
Template whose partials field is undefined. -/
inductive PEntry : Type where
  | raw (g : TNode)
  | tpl (g : TNode) (ps : PMap)
  | tplNoPs (g : TNode)
/-- A partials dictionary: an insertion-ordered association of names to
entries (JS object keys are unique). -/
inductive PMap : Type where
  | pnil
  | pcons (nm : String) (e : PEntry) (rest : PMap)
end

/-- A view as read by template.js: the truthiness of view.parentView and
the childViews dictionary (none when undefined; insertion-ordered;
component instances are identified by numbers). -/
structure ViewE : Type where
  hasParent : Bool
  childViews : Option (List (String × Nat))

/-- JS property lookup in a partials dictionary. -/
def lookupP : PMap → String → Option PEntry
  | .pnil, _ => none
  | .pcons nm e rest, k => if nm == k then some e else lookupP rest k

/-- JS property lookup of view.childViews by key. -/
def lookupCV : List (String × Nat) → String → Option Nat
  | [], _ => none
  | (k, v) :: rest, key => if k == key then some v else lookupCV rest key

/-- Unwrapping of a resolved partial entry: a Template is unwrapped to its
templateObj, a raw graph is used as is. -/
def entryGraph : PEntry → TNode
  | .raw g => g
  | .tpl g _ => g
  | .tplNoPs g => g

/-- The partials dictionary for the recursion into a resolved partial:
the entry's own partials when defined, else the process-wide registry. -/
def entrySubPartials : PEntry → PMap → PMap
  | .raw _, reg => reg
  | .tpl _ ps, _ => ps
  | .tplNoPs _, reg => reg

/-- Substring containment, the String.indexOf containment test. -/
def strHasSub (hay pat : String) : Bool :=
  (List.range (hay.toList.length + 1)).any fun i =>
    ((hay.toList.drop i).take pat.toList.length) == pat.toList

/-- The childClasses loop: iterate i from keys.length - 1 down to 0 and
return the first i whose space-padded key is contained in the padded
class string. -/
def findRevGo (padCN : String) (keys : List String) : Nat → Option Nat
  | 0 => none
  | i + 1 =>
    if strHasSub padCN (" " ++ keys.getD i "" ++ " ") then some i
    else findRevGo padCN keys i

/-- The reverse-order selector scan over all keys. -/
def findRevMatch (padCN : String) (keys : List String) : Option Nat :=
  findRevGo padCN keys keys.length

/-- The static members of a mixed class array. -/
def clsStatics : List ClsPart → List String
  | [] => []
  | .cs s :: rest => s :: clsStatics rest
  | .dyn _ :: rest => clsStatics rest

/-- The class string used for matching: the static string itself, or the
static members of a mixed array joined with spaces. -/
def classNameStr : ClsV → String
  | .one s => s
  | .many ps => String.intercalate " " (clsStatics ps)

/-- JS truthiness of the class attribute value (an empty string is falsy,
any array is truthy). -/
def clsTruthy : ClsV → Bool
  | .one s => !(s == "")
  | .many _ => true

/-- One-level flattening of a children array (the shallow _.flatten). -/
def flattenOne : List TNode → List TNode
  | [] => []
  | TNode.arr ys :: rest => ys ++ flattenOne rest
  | x :: rest => x :: flattenOne rest

/-- Elementwise attachment of an array, threading failure and collecting
warnings in order. -/
def attachListWith (f : TNode → Option (TNode × TNode × List String)) :
    List TNode → Option (List TNode × List String)
  | [] => some ([], [])
  | x :: xs => do
    let r ← f x
    let rs ← attachListWith f xs
    some (r.1 :: rs.1, r.2.2 ++ rs.2)

/-- The childClasses cache after the view-check block: computed from the
childViews keys when absent and the block is entered, else passed
through. -/
def ccUpdate (vw : ViewE) (root : Bool) (cc : Option (List String)) : Option (List String) :=
  if (!root) && vw.childViews.isSome then
    some (cc.getD ((vw.childViews.getD []).map Prod.fst))
  else cc

/-- The selector-match outcome for an element: scanned only when the node
is not a root, the view has childViews, and the class attribute is
truthy. -/
def matchIdx (vw : ViewE) (root : Bool) (acls : Option ClsV) (cc1 : Option (List String)) : Option Nat :=
  if (!root) && vw.childViews.isSome then
    match acls with
    | some cv =>
      if clsTruthy cv then findRevMatch (" " ++ classNameStr cv ++ " ") (cc1.getD [])
      else none
    | none => none
  else none

/-- The unresolved-partial diagnostic. -/
def noPartialMsg (nm : String) : String :=
  "Warning: no partial registered with the name " ++ nm

/-- The tail of the attachment of a compiled node, after the widget check
and the children recursion: the partial branch.  recurse is the attachment
of the resolved partial graph under its own partials dictionary. -/
def attachNodeFinish (recurse : PMap → TNode → Option (TNode × TNode × List String))
    (ps reg : PMap) (root : Bool) (t : Option Nat) (acls : Option ClsV)
    (f2 : Option (List TNode)) (r : Option String) (ws1 : List String) :
    Option (TNode × TNode × List String) :=
  if t = some 8 then
    match lookupP ps (r.getD "") with
    | none =>
      some (TNode.nullN, TNode.node root t acls f2 r, ws1 ++ [noPartialMsg (r.getD "")])
    | some e =>
      match recurse (entrySubPartials e reg) (entryGraph e) with
      | none => none
      | some p => some (p.1, TNode.node root t acls f2 r, ws1 ++ p.2.2)
  else some (TNode.node root t acls f2 r, TNode.node root t acls f2 r, ws1)

/-- The attachViews pass: some (result, post-call value of the input,
warnings), or none on fuel exhaustion or on inputs where the JS throws. -/
def attachRes : Nat → ViewE → Nat → PMap → PMap → Option (List String) → TNode →
    Option (TNode × TNode × List String)
  | 0, _, _, _, _, _, _ => none
  | _ + 1, _, _, _, _, _, TNode.str s => some (TNode.str s, TNode.str s, [])
  | _ + 1, _, _, _, _, _, TNode.nullN => none
  | _ + 1, _, _, _, _, _, TNode.undefN => none
  | fuel + 1, vw, ww, ps, reg, cc, TNode.arr xs =>
    match attachListWith (attachRes fuel vw ww ps reg cc) xs with
    | none => none
    | some (rs, ws) => some (TNode.arr rs, TNode.arr rs, ws)
  | _ + 1, _, _, _, _, _, TNode.widget a b c d =>
    some (TNode.widget a b c d, TNode.widget a b c d, [])
  | fuel + 1, vw, ww, ps, reg, cc, TNode.node root t acls f r =>
    match matchIdx vw root acls (ccUpdate vw root cc) with
    | some i =>
      some (TNode.widget ww
          (lookupCV (vw.childViews.getD []) (((ccUpdate vw root cc).getD []).getD i ""))
          (TNode.node root t acls f r) ps,
        TNode.node root t acls f r, [])
    | none =>
      match (match f with
             | some fs =>
               (attachListWith (attachRes fuel vw ww ps reg (ccUpdate vw root cc)) fs).map
                 (fun p => (some (flattenOne p.1), p.2))
             | none => some (none, ([] : List String))) with
      | none => none
      | some (f2, ws1) =>
        attachNodeFinish (fun ps2 g => attachRes fuel vw ww ps2 reg (ccUpdate vw root cc) g)
          ps reg root t acls f2 r ws1

/-- The returned graph of an attachment outcome. -/
def resOf (x : Option (TNode × TNode × List String)) : Option TNode := x.map fun p => p.1

/-- The post-call input graph of an attachment outcome. -/
def postOf (x : Option (TNode × TNode × List String)) : Option TNode := x.map fun p => p.2.1

/-- The warnings of an attachment outcome. -/
def warnsOf (x : Option (TNode × TNode × List String)) : Option (List String) :=
  x.map fun p => p.2.2

/-- A Template instance: the tuple stored by the constructor
(templateObj, partials, view); partials and view may be undefined. -/
structure TemplateE : Type where
  templateObj : TNode
  partials : Option PMap
  view : Option ViewE

/-- JS falsiness of a template graph value (undefined, null and the empty
string are falsy; arrays and objects are truthy). -/
def jsFalsyT : TNode → Bool
  | .undefN => true
  | .nullN => true
  | .str s => s == ""
  | _ => false

/-- JS property access templateObj.f: the children array when present on
a compiled node, undefined otherwise. -/
def fOf : TNode → TNode
  | .node _ _ _ (some xs) _ => .arr xs
  | _ => .undefN

/-- The arguments toString hands to the interpreter through _render:
ractiveAdaptor(stack, template or this.templateObj, context, partials or
registeredPartials, view).  The interpreter, string builder and context
are outside src and are treated as an opaque consumer of this record. -/
structure RenderCall : Type where
  templateArg : TNode
  viewArg : Option ViewE
  partialsArg : PMap

/-- Template.prototype.toString followed by _render: choose templateObj.f
when the template has a view with no parentView, fall back to the full
templateObj when the chosen value is falsy (the template or
this.templateObj disjunction in _render), pass null as the view argument,
and pass this.partials or the process-wide registry. -/
def toStringRenderCall (reg : PMap) (te : TemplateE) : RenderCall :=
  let tr :=
    match te.view with
    | some v => if v.hasParent = false then fOf te.templateObj else te.templateObj
    | none => te.templateObj
  { templateArg := if jsFalsyT tr then te.templateObj else tr,
    viewArg := none,
    partialsArg := te.partials.getD reg }

/-- Whether toString selects the subgraph templateObj.f: exactly when a
view is bound and its parentView is falsy. -/
def rendersSub (te : TemplateE) : Bool :=
  match te.view with
  | some v => !v.hasParent
  | none => false

/-- Claim C6 concrete template graph: a node with one string child. -/
def c6obj : TNode := TNode.node false none none (some [TNode.str "x"]) none

/-- Claim C6 concrete view with a parent (a non-top-level component). -/
def c6viewParent : ViewE := { hasParent := true, childViews := none }

/-- Claim C6 concrete top-level view (no parent). -/
def c6viewTop : ViewE := { hasParent := false, childViews := none }

/-- Claim C6 template bound to the non-top-level component. -/
def c6te1 : TemplateE := { templateObj := c6obj, partials := none, view := some c6viewParent }

/-- Claim C6 template bound to the top-level component. -/
def c6te2 : TemplateE := { templateObj := c6obj, partials := none, view := some c6viewTop }

/-- C6 counterexample: bound to a component that has a parent, toString
renders the full templateObj, not the subgraph templateObj.f the claim
predicts; bound to a component with no parent it renders exactly
templateObj.f, which differs from the full graph. -/
theorem c6_toString_subgraph_cex :
    (toStringRenderCall PMap.pnil c6te1).templateArg = c6obj ∧
    (toStringRenderCall PMap.pnil c6te1).templateArg ≠ fOf c6obj ∧
    (toStringRenderCall PMap.pnil c6te2).templateArg = fOf c6obj ∧
    fOf c6obj ≠ c6obj := by
  refine ⟨rfl, ?_, rfl, ?_⟩
  · intro h
    have h2 : c6obj = fOf c6obj := h
    exact TNode.noConfusion h2
  · intro h
    exact TNode.noConfusion h

/-- C6 (amended): toString renders the full bound graph unless the
Template is bound to a top-level component (one whose parentView is
falsy), in which case it renders only templateObj.f, the children of the
synthetic wrapper element. -/
theorem c6_toString_subgraph_amended (reg : PMap) (te : TemplateE)
    (root : Bool) (tF : Option Nat) (acls : Option ClsV) (xs : List TNode) (r : Option String)
    (hobj : te.templateObj = TNode.node root tF acls (some xs) r) :
    ((toStringRenderCall reg te).templateArg = TNode.arr xs
      ↔ ∃ v, te.view = some v ∧ v.hasParent = false) ∧
    (∀ v, te.view = some v → v.hasParent = true →
      (toStringRenderCall reg te).templateArg = te.templateObj) ∧
    (te.view = none → (toStringRenderCall reg te).templateArg = te.templateObj) := by
  obtain ⟨tobj, tps, tview⟩ := te
  simp only at hobj
  subst hobj
  cases tview with
  | none =>
    refine ⟨?_, ?_, ?_⟩
    · constructor
      · intro h
        exact absurd h (fun h2 => TNode.noConfusion h2)
      · rintro ⟨v, hv, _⟩
        exact Option.noConfusion hv
    · intro v hv
      exact absurd hv (fun h2 => Option.noConfusion h2)
    · intro _
      rfl
  | some v =>
    obtain ⟨hp, cvs⟩ := v
    cases hp with
    | false =>
      refine ⟨?_, ?_, ?_⟩
      · constructor
        · intro _
          exact ⟨⟨false, cvs⟩, rfl, rfl⟩
        · intro _
          rfl
      · intro v2 hv2 hpar
        cases hv2
        exact absurd hpar (by simp)
      · intro h
        exact Option.noConfusion h
    | true =>
      refine ⟨?_, ?_, ?_⟩
      · constructor
        · intro h
          exact absurd h (fun h2 => TNode.noConfusion h2)
        · rintro ⟨v2, hv2, hpar⟩
          cases hv2
          exact absurd hpar (by simp)
      · intro v2 hv2 hpar
        rfl
      · intro h
        exact Option.noConfusion h

/-- C6 witness: the amended theorem applied to the concrete top-level
binding selects exactly the children subgraph. -/
theorem c6_toString_subgraph_witness :
    (toStringRenderCall PMap.pnil c6te2).templateArg = TNode.arr [TNode.str "x"] :=
  (c6_toString_subgraph_amended PMap.pnil c6te2 false none none [TNode.str "x"] none rfl).1.mpr
    ⟨c6viewTop, rfl, rfl⟩

/-- C10: toString always passes null as the view argument of the render
step, even when the Template is bound to a component; and two templates
whose graphs and partials agree and whose bound views induce the same
subgraph selection produce the identical render call, so the bound
component influences the string output only through that selection. -/
theorem c10_render_view_null :
    (∀ (reg : PMap) (te : TemplateE), (toStringRenderCall reg te).viewArg = none) ∧
    (∀ (reg : PMap) (t1 t2 : TemplateE),
      t1.templateObj = t2.templateObj → t1.partials = t2.partials →
      rendersSub t1 = rendersSub t2 →
      toStringRenderCall reg t1 = toStringRenderCall reg t2) := by
  constructor
  · intro reg te
    rfl
  · intro reg t1 t2 hobj hps hsel
    obtain ⟨o1, p1, v1⟩ := t1
    obtain ⟨o2, p2, v2⟩ := t2
    simp only at hobj hps
    subst hobj
    subst hps
    unfold toStringRenderCall
    cases v1 with
    | none =>
      cases v2 with
      | none => rfl
      | some w2 =>
        obtain ⟨hp2, cv2⟩ := w2
        cases hp2 with
        | false => exact absurd hsel (by simp [rendersSub])
        | true => rfl
    | some w1 =>
      obtain ⟨hp1, cv1⟩ := w1
      cases v2 with
      | none =>
        cases hp1 with
        | false => exact absurd hsel (by simp [rendersSub])
        | true => rfl
      | some w2 =>
        obtain ⟨hp2, cv2⟩ := w2
        cases hp1 with
        | false =>
          cases hp2 with
          | false => rfl
          | true => exact absurd hsel (by simp [rendersSub])
        | true =>
          cases hp2 with
          | false => exact absurd hsel (by simp [rendersSub])
          | true => rfl

/-- Claim C10 concrete template with no bound view. -/
def c10a : TemplateE := { templateObj := c6obj, partials := none, view := none }

/-- Claim C10 concrete template bound to a component with a parent. -/
def c10b : TemplateE := { templateObj := c6obj, partials := none, view := some c6viewParent }

/-- C10 witness: the theorem applied to the concrete pair (unbound versus
bound to a non-top-level component): the render calls coincide and the
view argument is null. -/
theorem c10_render_view_null_witness :
    (toStringRenderCall PMap.pnil c10a).viewArg = none ∧
    toStringRenderCall PMap.pnil c10a = toStringRenderCall PMap.pnil c10b :=
  ⟨c10_render_view_null.1 PMap.pnil c10a,
   c10_render_view_null.2 PMap.pnil c10a c10b rfl rfl rfl⟩

lemma attachNodeFinish_post (recurse : PMap → TNode → Option (TNode × TNode × List String))
    (ps reg : PMap) (root : Bool) (t : Option Nat) (acls : Option ClsV)
    (f2 : Option (List TNode)) (r : Option String) (ws1 : List String)
    (out : TNode × TNode × List String)
    (h : attachNodeFinish recurse ps reg root t acls f2 r ws1 = some out) :
    out.2.1 = TNode.node root t acls f2 r := by
  unfold attachNodeFinish at h
  split at h
  · split at h
    · cases h
      rfl
    · split at h
      · exact Option.noConfusion h
      · cases h
        rfl
  · cases h
    rfl

lemma attachNodeFinish_otherTag (recurse : PMap → TNode → Option (TNode × TNode × List String))
    (ps reg : PMap) (root : Bool) (t : Option Nat) (acls : Option ClsV)
    (f2 : Option (List TNode)) (r : Option String) (ws1 : List String)
    (h8 : ¬(t = some 8)) :
    attachNodeFinish recurse ps reg root t acls f2 r ws1
      = some (TNode.node root t acls f2 r, TNode.node root t acls f2 r, ws1) := by
  unfold attachNodeFinish
  rw [if_neg h8]

lemma attachNodeFinish_unres (recurse : PMap → TNode → Option (TNode × TNode × List String))
    (ps reg : PMap) (root : Bool) (t : Option Nat) (acls : Option ClsV)
    (f2 : Option (List TNode)) (r : Option String) (ws1 : List String)
    (h8 : t = some 8) (hl : lookupP ps (r.getD "") = none) :
    attachNodeFinish recurse ps reg root t acls f2 r ws1
      = some (TNode.nullN, TNode.node root t acls f2 r, ws1 ++ [noPartialMsg (r.getD "")]) := by
  unfold attachNodeFinish
  rw [if_pos h8, hl]

lemma attachNodeFinish_res (recurse : PMap → TNode → Option (TNode × TNode × List String))
    (ps reg : PMap) (root : Bool) (t : Option Nat) (acls : Option ClsV)
    (f2 : Option (List TNode)) (r : Option String) (ws1 : List String)
    (e : PEntry) (h8 : t = some 8) (hl : lookupP ps (r.getD "") = some e) :
    attachNodeFinish recurse ps reg root t acls f2 r ws1
      = (recurse (entrySubPartials e reg) (entryGraph e)).map
          (fun p => (p.1, TNode.node root t acls f2 r, ws1 ++ p.2.2)) := by
  unfold attachNodeFinish
  rw [if_pos h8, hl]
  show (match recurse (entrySubPartials e reg) (entryGraph e) with
    | none => none
    | some p => some (p.1, TNode.node root t acls f2 r, ws1 ++ p.2.2)) = _
  rcases hr : recurse (entrySubPartials e reg) (entryGraph e) with _ | p
  · rfl
  · rfl

/-- Whether a graph value is a Partial node carrying a children array
(the one shape attachViews rewrites in place and then replaces wholesale). -/
def isPartialWithKids : TNode → Bool
  | TNode.node _ (some 8) _ (some _) _ => true
  | _ => false

/-- Claim C1 concrete view with one registered child selector. -/
def c1view : ViewE := { hasParent := false, childViews := some [("item", 11)] }

/-- Claim C1 concrete child element carrying the matching class. -/
def c1child : TNode := TNode.node false none (some (ClsV.one "item")) none none

/-- Claim C1 concrete input graph: a root node whose only child matches. -/
def c1g : TNode := TNode.node true none none (some [c1child]) none

/-- Observation distinguishing the mutated input from the original: the
first child of the node is a Widget. -/
def firstChildIsWidget : Option TNode → Bool
  | some (TNode.node _ _ _ (some (TNode.widget _ _ _ _ :: _)) _) => true
  | _ => false

/-- C1 counterexample: after attachViews on a graph whose child element
matches a registered selector, the input graph itself holds the Widget in
its child slot — the post-call input differs from the original graph (it
equals the returned graph), so the pass does mutate its input. -/
theorem c1_attach_mutates_input_cex :
    postOf (attachRes 2 c1view 5 PMap.pnil PMap.pnil none c1g) ≠ some c1g ∧
    postOf (attachRes 2 c1view 5 PMap.pnil PMap.pnil none c1g)
      = resOf (attachRes 2 c1view 5 PMap.pnil PMap.pnil none c1g) := by
  constructor
  · intro h
    have h2 := congrArg firstChildIsWidget h
    rw [show firstChildIsWidget
        (postOf (attachRes 2 c1view 5 PMap.pnil PMap.pnil none c1g)) = true from rfl] at h2
    exact Bool.noConfusion (h2.trans (show firstChildIsWidget (some c1g) = false from rfl))
  · rfl

/-- C1 (amended): attachViews attaches in place; whenever it returns, the
post-call value of the input graph is either the original graph (strings,
Widgets, matched elements, childless nodes including childless partials)
or the returned graph itself (arrays and nodes whose children array was
rewritten in place), except for a Partial node carrying children, whose
children are rewritten in place before the whole node is replaced by the
resolved partial attachment. -/
theorem c1_attach_in_place_amended (fuel : Nat) (vw : ViewE) (ww : Nat) (ps reg : PMap)
    (cc : Option (List String)) (t : TNode) (out : TNode × TNode × List String)
    (h : attachRes fuel vw ww ps reg cc t = some out) :
    out.2.1 = t ∨ out.2.1 = out.1 ∨ isPartialWithKids t = true := by
  cases fuel with
  | zero => exact Option.noConfusion h
  | succ fuel =>
    cases t with
    | str s =>
      cases h
      exact Or.inl rfl
    | nullN => exact Option.noConfusion h
    | undefN => exact Option.noConfusion h
    | widget a b c d =>
      cases h
      exact Or.inl rfl
    | arr xs =>
      simp only [attachRes] at h
      rcases hl : attachListWith (attachRes fuel vw ww ps reg cc) xs with _ | ⟨rs, ws⟩
      · rw [hl] at h
        exact Option.noConfusion h
      · rw [hl] at h
        cases h
        exact Or.inr (Or.inl rfl)
    | node root t0 acls f r =>
      simp only [attachRes] at h
      rcases hm : matchIdx vw root acls (ccUpdate vw root cc) with _ | i
      · rw [hm] at h
        cases f with
        | none =>
          have h2 : attachNodeFinish
              (fun ps2 g => attachRes fuel vw ww ps2 reg (ccUpdate vw root cc) g)
              ps reg root t0 acls none r [] = some out := h
          exact Or.inl (attachNodeFinish_post _ _ _ _ _ _ _ _ _ _ h2)
        | some fs =>
          have h2 : (match (attachListWith (attachRes fuel vw ww ps reg (ccUpdate vw root cc)) fs).map
              (fun p => (some (flattenOne p.1), p.2)) with
            | none => none
            | some (f2, ws1) =>
              attachNodeFinish (fun ps2 g => attachRes fuel vw ww ps2 reg (ccUpdate vw root cc) g)
                ps reg root t0 acls f2 r ws1) = some out := h
          rcases hl : attachListWith (attachRes fuel vw ww ps reg (ccUpdate vw root cc)) fs
              with _ | ⟨rs, ws1⟩
          · rw [hl] at h2
            exact Option.noConfusion h2
          · rw [hl] at h2
            by_cases h8 : t0 = some 8
            · refine Or.inr (Or.inr ?_)
              rw [h8]
              rfl
            · have h3 : attachNodeFinish
                  (fun ps2 g => attachRes fuel vw ww ps2 reg (ccUpdate vw root cc) g)
                  ps reg root t0 acls (some (flattenOne rs)) r ws1 = some out := h2
              rw [attachNodeFinish_otherTag _ _ _ _ _ _ _ _ _ h8] at h3
              cases h3
              exact Or.inr (Or.inl rfl)
      · rw [hm] at h
        cases h
        exact Or.inl rfl

/-- Claim C1 amended-theorem witness output: the concrete attachment
outcome on the counterexample graph. -/
def c1out : TNode × TNode × List String :=
  (TNode.node true none none (some [TNode.widget 5 (some 11) c1child PMap.pnil]) none,
   TNode.node true none none (some [TNode.widget 5 (some 11) c1child PMap.pnil]) none, [])

/-- C1 witness: the amended theorem applied to the concrete graph; the
post-call input equals the returned graph there. -/
theorem c1_attach_in_place_witness :
    c1out.2.1 = c1g ∨ c1out.2.1 = c1out.1 ∨ isPartialWithKids c1g = true :=
  c1_attach_in_place_amended 2 c1view 5 PMap.pnil PMap.pnil none c1g c1out rfl

lemma matchIdx_no_acls (vw : ViewE) (root : Bool) (cc1 : Option (List String)) :
    matchIdx vw root none cc1 = none := by
  unfold matchIdx
  split <;> rfl

/-- Claim C4 concrete local partials dictionary (non-empty, without the
name header). -/
def c4ps : PMap := PMap.pcons "x" (PEntry.raw (TNode.str "y")) PMap.pnil

/-- Claim C4 concrete process-wide registry, which does hold header. -/
def c4reg : PMap := PMap.pcons "header" (PEntry.raw (TNode.str "H")) PMap.pnil

/-- Claim C4 concrete Partial node referencing header. -/
def c4node : TNode := TNode.node false (some 8) none none (some "header")

/-- Claim C4 concrete view. -/
def c4view : ViewE := { hasParent := false, childViews := none }

/-- C4 counterexample: the partial name is absent from the supplied
partials dictionary but present in the process-wide registry, yet the
pass emits the diagnostic and replaces the node with null — the registry
is not consulted as a per-name fallback, contradicting the claim that a
diagnostic occurs only when the name is absent from both. -/
theorem c4_registry_fallback_cex :
    attachRes 3 c4view 0 c4ps c4reg none c4node
      = some (TNode.nullN, c4node, [noPartialMsg "header"]) ∧
    (lookupP c4reg "header").isSome = true := ⟨rfl, rfl⟩

/-- C4 (amended): a Partial node reached by the pass is resolved against
the supplied partials dictionary only; the registry enters solely as the
recursion dictionary when the resolved entry has no partials of its own
(and as the dictionary initially supplied by attachView when the template
has none).  When the name is absent from the supplied dictionary — for
every registry contents — exactly one diagnostic is emitted and the node
is replaced by null instead of failing the pass; when the name resolves
to a Template it is unwrapped to its templateObj before recursing. -/
theorem c4_partial_resolution_amended (fuel : Nat) (vw : ViewE) (ww : Nat) (ps reg : PMap)
    (cc : Option (List String)) (root : Bool) (r : Option String) :
    (lookupP ps (r.getD "") = none →
      attachRes (fuel + 1) vw ww ps reg cc (TNode.node root (some 8) none none r)
        = some (TNode.nullN, TNode.node root (some 8) none none r, [noPartialMsg (r.getD "")])) ∧
    (∀ e, lookupP ps (r.getD "") = some e →
      attachRes (fuel + 1) vw ww ps reg cc (TNode.node root (some 8) none none r)
        = (attachRes fuel vw ww (entrySubPartials e reg) reg (ccUpdate vw root cc) (entryGraph e)).map
            (fun p => (p.1, TNode.node root (some 8) none none r, p.2.2))) := by
  have hbase : attachRes (fuel + 1) vw ww ps reg cc (TNode.node root (some 8) none none r)
      = attachNodeFinish (fun ps2 g => attachRes fuel vw ww ps2 reg (ccUpdate vw root cc) g)
          ps reg root (some 8) none none r [] := by
    simp only [attachRes]
    rw [matchIdx_no_acls]
  constructor
  · intro hl
    rw [hbase, attachNodeFinish_unres _ _ _ _ _ _ _ _ _ rfl hl]
    rw [List.nil_append]
  · intro e hl
    rw [hbase, attachNodeFinish_res _ _ _ _ _ _ _ _ _ _ rfl hl]
    rcases hr : attachRes fuel vw ww (entrySubPartials e reg) reg (ccUpdate vw root cc)
        (entryGraph e) with _ | p
    · rfl
    · rfl

/-- C4 witness: the amended theorem applied to the concrete unresolved
name (header absent from the supplied dictionary, present in the
registry). -/
theorem c4_partial_resolution_witness :
    attachRes 3 c4view 0 c4ps c4reg none (TNode.node false (some 8) none none (some "header"))
      = some (TNode.nullN, TNode.node false (some 8) none none (some "header"),
          [noPartialMsg "header"]) :=
  (c4_partial_resolution_amended 2 c4view 0 c4ps c4reg none false (some "header")).1 rfl

lemma findRevGo_none_spec (padCN : String) (keys : List String) :
    ∀ n, findRevGo padCN keys n = none →
      ∀ m, m < n → strHasSub padCN (" " ++ keys.getD m "" ++ " ") = false := by
  intro n
  induction n with
  | zero =>
    intro _ m hm
    exact absurd hm (Nat.not_lt_zero m)
  | succ n ih =>
    intro h m hm
    unfold findRevGo at h
    split at h
    · exact Option.noConfusion h
    · next hcond =>
      rcases Nat.lt_succ_iff_lt_or_eq.mp hm with hm2 | hm2
      · exact ih h m hm2
      · subst hm2
        exact Bool.not_eq_true _ ▸ eq_false_of_ne_true hcond

lemma findRevGo_some_spec (padCN : String) (keys : List String) :
    ∀ n k, findRevGo padCN keys n = some k →
      k < n ∧ strHasSub padCN (" " ++ keys.getD k "" ++ " ") = true ∧
      ∀ m, k < m → m < n → strHasSub padCN (" " ++ keys.getD m "" ++ " ") = false := by
  intro n
  induction n with
  | zero =>
    intro k h
    exact Option.noConfusion h
  | succ n ih =>
    intro k h
    unfold findRevGo at h
    split at h
    · next hcond =>
      have hk : n = k := Option.some.inj h
      subst hk
      refine ⟨Nat.lt_succ_self _, hcond, ?_⟩
      intro m hnm hm
      exact absurd (Nat.lt_of_lt_of_le hnm (Nat.le_of_lt_succ hm)) (Nat.lt_irrefl n)
    · next hcond =>
      obtain ⟨h1, h2, h3⟩ := ih k h
      refine ⟨Nat.lt_succ_of_lt h1, h2, ?_⟩
      intro m hkm hm
      rcases Nat.lt_succ_iff_lt_or_eq.mp hm with hm2 | hm2
      · exact h3 m hkm hm2
      · subst hm2
        exact eq_false_of_ne_true hcond

lemma lookupCV_getD (cvs : List (String × Nat)) :
    ∀ k, k < cvs.length → (cvs.map Prod.fst).Nodup →
      lookupCV cvs ((cvs.map Prod.fst).getD k "") = some (cvs.getD k ("", 0)).2 := by
  induction cvs with
  | nil =>
    intro k hk
    simp at hk
  | cons kv rest ih =>
    intro k hk hnodup
    obtain ⟨k0, v0⟩ := kv
    cases k with
    | zero =>
      show lookupCV ((k0, v0) :: rest) k0 = some v0
      unfold lookupCV
      rw [if_pos (beq_self_eq_true k0)]
    | succ k =>
      have hk2 : k < rest.length := by simpa using hk
      have hnodup2 : (k0 :: rest.map Prod.fst).Nodup := hnodup
      have hsplit := List.nodup_cons.mp hnodup2
      have hkeymem : (rest.map Prod.fst).getD k "" ∈ rest.map Prod.fst := by
        rw [List.getD_eq_getElem _ _ (by simpa using hk2)]
        exact List.getElem_mem _
      have hne2 : (k0 == (rest.map Prod.fst).getD k "") = false := by
        refine beq_eq_false_iff_ne.mpr ?_
        intro heq
        exact hsplit.1 (heq ▸ hkeymem)
      show lookupCV ((k0, v0) :: rest) ((rest.map Prod.fst).getD k "")
          = some (rest.getD k ("", 0)).2
      unfold lookupCV
      rw [hne2]
      show lookupCV rest ((rest.map Prod.fst).getD k "") = some (rest.getD k ("", 0)).2
      exact ih k hk2 hsplit.2

/-- C5: when at least two registered selector names are contained (space
padded) in an element's static class string, the attachment pass replaces
the element with a Widget bound to the component of the later-registered
selector: the scan runs over the registration order in reverse, the first
match wins, and the chosen index is at least as late as every matching
index. -/
theorem c5_selector_tie_break (fuel : Nat) (vw : ViewE) (ww : Nat) (ps reg : PMap)
    (cvs : List (String × Nat)) (t0 : Option Nat) (acls : ClsV) (f : Option (List TNode))
    (r : Option String) (i j : Nat)
    (_hij : i < j) (hjlen : j < cvs.length)
    (hcv : vw.childViews = some cvs)
    (hnodup : (cvs.map Prod.fst).Nodup)
    (htr : clsTruthy acls = true)
    (_hi : strHasSub (" " ++ classNameStr acls ++ " ")
      (" " ++ (cvs.map Prod.fst).getD i "" ++ " ") = true)
    (hj : strHasSub (" " ++ classNameStr acls ++ " ")
      (" " ++ (cvs.map Prod.fst).getD j "" ++ " ") = true) :
    ∃ k, j ≤ k ∧ k < cvs.length ∧
      strHasSub (" " ++ classNameStr acls ++ " ")
        (" " ++ (cvs.map Prod.fst).getD k "" ++ " ") = true ∧
      (∀ m, k < m → m < cvs.length →
        strHasSub (" " ++ classNameStr acls ++ " ")
          (" " ++ (cvs.map Prod.fst).getD m "" ++ " ") = false) ∧
      attachRes (fuel + 1) vw ww ps reg none (TNode.node false t0 (some acls) f r)
        = some (TNode.widget ww (some ((cvs.getD k ("", 0)).2))
            (TNode.node false t0 (some acls) f r) ps,
          TNode.node false t0 (some acls) f r, []) := by
  have hkeyslen : (cvs.map Prod.fst).length = cvs.length := List.length_map _ _
  rcases hfm : findRevMatch (" " ++ classNameStr acls ++ " ") (cvs.map Prod.fst) with _ | k
  · exfalso
    have hall := findRevGo_none_spec _ _ _ hfm j (by rw [hkeyslen]; exact hjlen)
    rw [hall] at hj
    exact Bool.noConfusion hj
  · obtain ⟨hkn, hkmatch, hkmax⟩ := findRevGo_some_spec _ _ _ _ hfm
    have hklen : k < cvs.length := by rw [← hkeyslen]; exact hkn
    have hjk : j ≤ k := by
      by_contra hjk
      have hkj : k < j := Nat.lt_of_not_le hjk
      have := hkmax j hkj (by rw [hkeyslen]; exact hjlen)
      rw [this] at hj
      exact Bool.noConfusion hj
    have hcc : ccUpdate vw false none = some (cvs.map Prod.fst) := by
      unfold ccUpdate
      rw [hcv]
      rfl
    have hmi : matchIdx vw false (some acls) (some (cvs.map Prod.fst)) = some k := by
      unfold matchIdx
      rw [hcv]
      show (if clsTruthy acls = true then
        findRevMatch (" " ++ classNameStr acls ++ " ") (cvs.map Prod.fst) else none) = some k
      rw [if_pos htr, hfm]
    refine ⟨k, hjk, hklen, hkmatch, ?_, ?_⟩
    · intro m hkm hmlen
      exact hkmax m hkm (by rw [hkeyslen]; exact hmlen)
    · simp only [attachRes]
      rw [hcc, hmi]
      have hlook : lookupCV (vw.childViews.getD [])
          (((some (cvs.map Prod.fst) : Option (List String)).getD []).getD k "")
          = some (cvs.getD k ("", 0)).2 := by
        rw [hcv]
        show lookupCV cvs ((cvs.map Prod.fst).getD k "") = some (cvs.getD k ("", 0)).2
        exact lookupCV_getD cvs k hklen hnodup
      show some (TNode.widget ww
          (lookupCV (vw.childViews.getD [])
            (((some (cvs.map Prod.fst) : Option (List String)).getD []).getD k ""))
          (TNode.node false t0 (some acls) f r) ps,
        TNode.node false t0 (some acls) f r, ([] : List String)) = _
      rw [hlook]

/-- Claim C5 concrete view with two registered selectors. -/
def c5view : ViewE := { hasParent := false, childViews := some [("item", 11), ("other", 22)] }

/-- Claim C5 concrete element whose class string contains both selector
names. -/
def c5tie : TNode := TNode.node false none (some (ClsV.one "item other")) none none

/-- C5 witness: the theorem applied to the concrete two-selector tie; the
later-registered selector (other, index one) wins and its component is the
one bound into the Widget. -/
theorem c5_selector_tie_break_witness :
    ∃ k, 1 ≤ k ∧ k < ([("item", 11), ("other", 22)] : List (String × Nat)).length ∧
      strHasSub (" " ++ classNameStr (ClsV.one "item other") ++ " ")
        (" " ++ (([("item", 11), ("other", 22)] : List (String × Nat)).map Prod.fst).getD k "" ++ " ")
          = true ∧
      (∀ m, k < m → m < ([("item", 11), ("other", 22)] : List (String × Nat)).length →
        strHasSub (" " ++ classNameStr (ClsV.one "item other") ++ " ")
          (" " ++ (([("item", 11), ("other", 22)] : List (String × Nat)).map Prod.fst).getD m "" ++ " ")
            = false) ∧
      attachRes 1 c5view 5 PMap.pnil PMap.pnil none c5tie
        = some (TNode.widget 5
            (some ((([("item", 11), ("other", 22)] : List (String × Nat)).getD k ("", 0)).2))
            c5tie PMap.pnil, c5tie, []) :=
  c5_selector_tie_break 0 c5view 5 PMap.pnil PMap.pnil [("item", 11), ("other", 22)]
    none (ClsV.one "item other") none none 0 1
    (by decide) (by decide) rfl (by decide) (by decide) (by decide) (by decide)
